import Mathlib

/-!
Verification of the netstack socket-proxy core (`socket_functions.c`,
`handle_watcher.c`) against its natural-language specification.

The C code is shallowly embedded: each handler becomes a Lean function over
explicit state records and oracle parameters standing for the opaque
NetBackend and kernel-primitive calls (their results are inputs to the
model, since the backend is declared external by the spec).  Machine
integers are modelled as `Int`/`Nat`; C strings are NUL-free `List Char`
(the terminating NUL is the end of the list).
-/

/-! ### Errno values and status codes

Errno constants carry the conventional numeric values of the platform's
`errno.h` (only their distinctness and identity matter to the code).
The `EIO` constant is named `Eio` here.  `EAGAIN` and `EWOULDBLOCK`
share one value, as on the source platform. -/

def EACCES : Int := 13

def EBADF : Int := 9

def EINPROGRESS : Int := 115

def EINVAL : Int := 22

def Eio : Int := 5

def ENOBUFS : Int := 105

def ENOMEM : Int := 12

def EWOULDBLOCK : Int := 11

def EAGAIN : Int := 11

def ERANGE : Int := 34

/-- Magenta `mx_status_t` results used by the translated code, as an
inductive type (the concrete negative integers never matter, only which
status is which). -/
inductive Status where
  | noError
  | errAccessDenied
  | errBadHandle
  | errShouldWait
  | errInvalidArgs
  | errIo
  | errNoResources
  | errNoMemory
  | errNotSupported
  | errPeerClosed
  | errInternal
  deriving DecidableEq, Repr

/-- Translation of `errno_to_status` (socket_functions.c:178-199): the
C `switch` on the errno value, with `default` mapping to `ERR_IO`. -/
def errno_to_status (e : Int) : Status :=
  if e = EACCES then .errAccessDenied
  else if e = EBADF then .errBadHandle
  else if e = EINPROGRESS then .errShouldWait
  else if e = EINVAL then .errInvalidArgs
  else if e = Eio then .errIo
  else if e = ENOBUFS then .errNoResources
  else if e = ENOMEM then .errNoMemory
  else if e = EWOULDBLOCK then .errShouldWait
  else .errIo

/-! ### `strtol`-based socket path parsing (socket_functions.c:201-218) -/

/-- Character class used by `strtol` for leading whitespace
(`isspace` in the C locale). -/
def isSpaceC (c : Char) : Bool :=
  c = ' ' || c = '\t' || c = '\n' || c = '\x0b' || c = '\x0c' || c = '\r'

/-- Decimal digit test. -/
def isDigitC (c : Char) : Bool :=
  decide ('0' ≤ c) && decide (c ≤ '9')

/-- Numeric value of a decimal digit character. -/
def digVal (c : Char) : Nat := c.toNat - '0'.toNat

/-- Value of a string of decimal digits, most significant first. -/
def natOfDigits (ds : List Char) : Nat :=
  ds.foldl (fun a c => a * 10 + digVal c) 0

def LONG_MAX : Int := 2 ^ 63 - 1

def LONG_MIN : Int := -(2 ^ 63)

/-- Result of one `strtol(s, &end, 10)` call: the converted value, the
rest of the string starting at `*end`, and whether `errno` was set to
`ERANGE` by the call (the only errno this code path can produce). -/
structure StrtolResult where
  value : Int
  rest : List Char
  range_err : Bool
  deriving DecidableEq, Repr

/-- Signed value of a digit run. -/
def strtolVal (neg : Bool) (ds : List Char) : Int :=
  if neg then -(natOfDigits ds : Int) else (natOfDigits ds : Int)

/-- Digit-run phase of `strtol`: `s` is the original input (for the
no-conversion reset of the end pointer), `b` the input after whitespace
and sign. -/
def strtolNum (s b : List Char) (neg : Bool) : StrtolResult :=
  if b.takeWhile isDigitC = [] then ⟨0, s, false⟩
  else if strtolVal neg (b.takeWhile isDigitC) > LONG_MAX then
    ⟨LONG_MAX, b.dropWhile isDigitC, true⟩
  else if strtolVal neg (b.takeWhile isDigitC) < LONG_MIN then
    ⟨LONG_MIN, b.dropWhile isDigitC, true⟩
  else ⟨strtolVal neg (b.takeWhile isDigitC), b.dropWhile isDigitC, false⟩

/-- Sign phase of `strtol`: `a` is the input after whitespace. -/
def strtolSign (s a : List Char) : StrtolResult :=
  if a.head? = some '-' then strtolNum s a.tail true
  else if a.head? = some '+' then strtolNum s a.tail false
  else strtolNum s a false

/-- Model of C `strtol` with base 10: skip whitespace, an optional
sign, then a maximal run of decimal digits.  If no digits were consumed
("no conversion"), the end pointer is reset to the original input and 0
is returned, per the C standard.  On overflow past `long` range the
value saturates and `errno = ERANGE`. -/
def strtol10 (s : List Char) : StrtolResult :=
  strtolSign s (s.dropWhile isSpaceC)

/-- Truncation of a `long` value to `int` on the LP64 target:
two's-complement wrap into `[-2^31, 2^31)`.  This happens at each
`*domain = strtol(...)` store in `parse_socket_args`, whose out
parameters are `int` while `strtol` returns `long`. -/
def toInt32 (v : Int) : Int := (v + 2 ^ 31) % 2 ^ 32 - 2 ^ 31

/-- Third `strtol` of `parse_socket_args` plus the final `*ptr != '\0'`
check; the stored value is `strtol`'s `long` truncated to `int`. -/
def parse_third (v1 v2 : Int) (r3 : StrtolResult) :
    Option (Int × Int × Int) :=
  if r3.range_err then none
  else if r3.rest = [] then some (v1, v2, toInt32 r3.value)
  else none

/-- Second `strtol` of `parse_socket_args` plus its `*ptr++ != '/'`
check; the stored value is `strtol`'s `long` truncated to `int`. -/
def parse_second (v1 : Int) (r2 : StrtolResult) :
    Option (Int × Int × Int) :=
  if r2.range_err then none
  else if r2.rest.head? = some '/' then
    parse_third v1 (toInt32 r2.value) (strtol10 r2.rest.tail)
  else none

/-- First `strtol` of `parse_socket_args` plus its `*ptr++ != '/'`
check; the stored value is `strtol`'s `long` truncated to `int`. -/
def parse_first (r1 : StrtolResult) : Option (Int × Int × Int) :=
  if r1.range_err then none
  else if r1.rest.head? = some '/' then
    parse_second (toInt32 r1.value) (strtol10 r1.rest.tail)
  else none

/-- Translation of `parse_socket_args` (socket_functions.c:201-218).
`errno` is zeroed before the first `strtol` and is only ever set (to
`ERANGE`) by an overflowing `strtol`, so the C `if (errno != 0)` checks
become `range_err` checks.  Each `*out = strtol(...)` store truncates
the `long` to the `int` out parameter (`toInt32`).  `*ptr++ != '/'`
reads the NUL when the list is exhausted, which fails the test; the
final `*ptr != '\0'` check is `rest = []`.  `some (d, t, p)` stands for
`NO_ERROR` with the three out parameters; `none` stands for
`ERR_INVALID_ARGS`. -/
def parse_socket_args (path : List Char) : Option (Int × Int × Int) :=
  parse_first (strtol10 path)

/-- Head of a list is not a decimal digit (or the list is empty — the
C string's terminating NUL). -/
def headNotDigit : List Char → Prop
  | [] => True
  | c :: _ => isDigitC c = false

/-- Head of a list is a character `strtol` cannot consume at all: not a
digit, not whitespace, not a sign (or the list is empty). -/
def headHard : List Char → Prop
  | [] => True
  | c :: _ => isDigitC c = false ∧ isSpaceC c = false ∧ c ≠ '+' ∧ c ≠ '-'

/-! ### Handle types, signal bits, event bits -/

/-- The `handle_type` enum (socket_functions.c:34-38). -/
inductive HType where
  | htNone
  | htStream
  | htDgram
  deriving DecidableEq, Repr

/-- Modelled from the spec: the net multiplexer's per-fd event bits
(`multiplexer.h` is not under src/; the spec names READ, WRITE, EXCEPT).
Distinct bit values. -/
def EVENT_READ : Nat := 1

def EVENT_WRITE : Nat := 2

def EVENT_EXCEPT : Nat := 4

def EVENT_ALL : Nat := 7

/-- Modelled from the spec: the kernel/user signal bits on the data
endpoint (`mxio/socket.h` and `magenta` headers are not under src/; the
spec names READABLE, WRITABLE, PEER_CLOSED plus the user signals
CONNECTED, INCOMING, OUTGOING, HALFCLOSED).  Distinct bit values. -/
def MX_SOCKET_READABLE : Nat := 1

def MX_SOCKET_WRITABLE : Nat := 2

def MX_SOCKET_PEER_CLOSED : Nat := 4

def MXSIO_SIGNAL_INCOMING : Nat := 8

def MXSIO_SIGNAL_OUTGOING : Nat := 16

def MXSIO_SIGNAL_CONNECTED : Nat := 32

def MXSIO_SIGNAL_HALFCLOSED : Nat := 64

/-- RIO op-codes / internal pseudo-ops appearing in scheduling actions. -/
inductive OpCode where
  | opRead
  | opWrite
  | opClose
  | opHalfclose
  | opSigconnR
  | opSigconnW
  deriving DecidableEq, Repr

/-- The two keyed wait queues (`WAIT_NET`, `WAIT_SOCKET`). -/
inductive QueueId where
  | net
  | socketQ
  deriving DecidableEq, Repr

/-- Observable side effects performed by a handler, in program order:
per-fd event arming, queueing of pending requests, user-signal edits on
the data endpoint's peer, wait-set signal arming, and refcount release. -/
inductive Act where
  | fdEventSet (fd : Int) (ev : Nat)
  | waitQueuePut (q : QueueId) (fd : Int) (op : OpCode)
  | signalPeerSet (sigs : Nat)
  | signalPeerClear (sigs : Nat)
  | socketSignalsSetAct (sigs : Nat)
  | iostateReleaseAct
  deriving DecidableEq, Repr

/-- Translation of `schedule_sigconn_r` (socket_functions.c:58-63):
arm `EVENT_READ` on the fd and queue a `SIGCONN_R` request on the
net-wait queue. -/
def schedule_sigconn_r (fd : Int) : List Act :=
  [.fdEventSet fd EVENT_READ, .waitQueuePut .net fd .opSigconnR]

/-- Translation of `schedule_r` (socket_functions.c:72-76). -/
def schedule_r (fd : Int) : List Act :=
  [.fdEventSet fd EVENT_READ, .waitQueuePut .net fd .opRead]

/-- Translation of `schedule_w` (socket_functions.c:78-83). -/
def schedule_w (fd : Int) : List Act :=
  [.socketSignalsSetAct MX_SOCKET_READABLE, .waitQueuePut .socketQ fd .opWrite]

/-- Translation of `schedule_rw` (socket_functions.c:86-94): for stream
type, set the `CONNECTED` user signal on the peer, then schedule read
and write. -/
def schedule_rw (ht : HType) (fd : Int) : List Act :=
  (if ht = HType.htStream then [Act.signalPeerSet MXSIO_SIGNAL_CONNECTED]
   else []) ++ schedule_r fd ++ schedule_w fd

/-! ### `do_sigconn_w` (socket_functions.c:418-437) -/

/-- Outcome of one `do_sigconn_w` invocation: whether the `OUTGOING`
user signal was set on the data endpoint's peer, whether read/write was
scheduled (`schedule_rw`), the resulting `last_errno`, and the returned
status. -/
structure SigconnWResult where
  outgoingSet : Bool
  rwScheduled : Bool
  lastErrno : Int
  status : Status
  deriving DecidableEq, Repr

/-- Translation of `do_sigconn_w`.  Oracle inputs: `gsoRet`/`gsoErrno`
are the return value and errno of `net_getsockopt(SO_ERROR)`, and
`soError` is the `SO_ERROR` value it read out.  The source sets the
`OUTGOING` peer signal for stream type first, unconditionally, and only
then reads `SO_ERROR`; `schedule_rw` runs only when the `getsockopt`
succeeded and the read value is zero. -/
def do_sigconn_w (ht : HType) (lastErrno0 : Int)
    (gsoRet gsoErrno soError : Int) : SigconnWResult :=
  let outgoingSet := ht = HType.htStream
  let errno_ := if gsoRet < 0 then gsoErrno else 0
  if errno_ = 0 then
    { outgoingSet := outgoingSet
      rwScheduled := soError = 0
      lastErrno := soError
      status := .noError }
  else
    { outgoingSet := outgoingSet
      rwScheduled := false
      lastErrno := lastErrno0
      status := .noError }

/-! ### `do_accept` (socket_functions.c:485-535) -/

/-- Oracle for one `do_accept` invocation: result and errno of
`net_accept`, result and errno of `net_ioctl(FIONBIO)` on the accepted
fd, and the status of `create_handles` for the child IOState. -/
structure AcceptOracle where
  acceptRet : Int
  acceptErrno : Int
  fionbioRet : Int
  fionbioErrno : Int
  createHandles : Status
  deriving DecidableEq, Repr

/-- Result of `do_accept`: returned status, the handler's side effects
in program order, and the parent IOState's final `last_errno`. -/
structure AcceptResult where
  status : Status
  actions : List Act
  lastErrno : Int
  deriving DecidableEq, Repr

/-- Translation of `do_accept` for a parent IOState of handle type `ht`
listening on `listenFd`.  On `net_accept` failure the handler returns
`errno_to_status` immediately — before the `INCOMING` clear and the
`schedule_sigconn_r` rearm, which happen only on the success path. -/
def do_accept (ht : HType) (listenFd : Int) (o : AcceptOracle) :
    AcceptResult :=
  let errno1 := if o.acceptRet < 0 then o.acceptErrno else 0
  if errno1 ≠ 0 then
    { status := errno_to_status errno1, actions := [], lastErrno := errno1 }
  else
    let clearAct :=
      if ht = HType.htStream then
        [Act.signalPeerClear MXSIO_SIGNAL_INCOMING]
      else []
    let rearm := schedule_sigconn_r listenFd
    let newFd := o.acceptRet
    let errno2 := if o.fionbioRet < 0 then o.fionbioErrno else 0
    if errno2 ≠ 0 then
      { status := errno_to_status errno2
        actions := clearAct ++ rearm ++ [.iostateReleaseAct]
        lastErrno := errno2 }
    else if o.createHandles ≠ Status.noError then
      { status := o.createHandles
        actions := clearAct ++ rearm ++ [.iostateReleaseAct]
        lastErrno := errno2 }
    else
      { status := .noError
        actions := clearAct ++ rearm ++
          [.fdEventSet newFd EVENT_EXCEPT,
           .socketSignalsSetAct (MX_SOCKET_PEER_CLOSED + MXSIO_SIGNAL_HALFCLOSED)] ++
          schedule_rw ht newFd
        lastErrno := errno2 }

/-! ### `do_open` path dispatch (socket_functions.c:220-288) -/

/-- Translation of `match_subdir` (socket_functions.c:220-228):
`strncmp` equality on the first `name.length` characters, then the
following character must be the NUL (list end) or `'/'`; the returned
pointer is the rest of the path after that character. -/
def match_subdir (path name : List Char) : Option (List Char) :=
  if path.take name.length = name then
    match path.drop name.length with
    | [] => some []
    | '/' :: rest => some rest
    | _ => none
  else none

/-- Modelled from the spec: the three `OPEN` sub-directory names from
`mxio/remoteio.h` (not under src/); the spec's path grammar is
`none | socket/<d>/<t>/<p> | accept`. -/
def MXRIO_SOCKET_DIR_NONE : List Char := ['n', 'o', 'n', 'e']

def MXRIO_SOCKET_DIR_SOCKET : List Char := ['s', 'o', 'c', 'k', 'e', 't']

def MXRIO_SOCKET_DIR_ACCEPT : List Char := ['a', 'c', 'c', 'e', 'p', 't']

/-- Which `OPEN` sub-handler the path selected. -/
inductive SubH where
  | subNone
  | subSocket
  | subAccept
  deriving DecidableEq, Repr

/-- Observable outcome of one `do_open` invocation (socket_functions.c:
243-288): the status written into the reply envelope, which sub-handler
ran (if any), the value returned to the operation router, how many
reply envelopes were written on the request's originating channel
`msg->handle[0]`, and whether that channel handle was closed. -/
structure OpenModel where
  replyStatus : Status
  subHandler : Option SubH
  returnValue : Status
  repliesWritten : Nat
  handleClosed : Bool
  deriving DecidableEq, Repr

/-- Translation of `do_open`.  `datalen` is `msg->datalen`; `path` is
the C string at `msg->data` after the source stores a NUL at
`path[datalen]`.  `subResult` gives the status each sub-handler would
return (their internals are modelled separately); `writeResult` is the
result of the `mx_channel_write` of the reply, which the source
ignores — it does not influence any field of the outcome.  Both the
out-of-range early exit and the dispatch paths fall through to the
common `reply:` tail that writes one envelope carrying the status and
closes `msg->handle[0]`, returning `NO_ERROR` to the router. -/
def do_open (datalen : Nat) (path : List Char) (subResult : SubH → Status)
    (writeResult : Status) : OpenModel :=
  if datalen < 1 ∨ 1024 < datalen then
    { replyStatus := .errInvalidArgs
      subHandler := none
      returnValue := .noError
      repliesWritten := 1
      handleClosed := true }
  else
    let dispatched : Status × Option SubH :=
      if (match_subdir path MXRIO_SOCKET_DIR_NONE).isSome then
        (subResult .subNone, some .subNone)
      else if (match_subdir path MXRIO_SOCKET_DIR_SOCKET).isSome then
        (subResult .subSocket, some .subSocket)
      else if (match_subdir path MXRIO_SOCKET_DIR_ACCEPT).isSome then
        (subResult .subAccept, some .subAccept)
      else (.errInvalidArgs, none)
    { replyStatus := dispatched.1
      subHandler := dispatched.2
      returnValue := .noError
      repliesWritten := 1
      handleClosed := true }

/-! ### `do_close` (socket_functions.c:369-385) -/

/-- State touched by the `CLOSE` handler: the IOState's socket fd and
refcount, its held I/O buffers, the process-wide per-fd event-mask
table, both wait queues (entries keyed by fd), and the buffer-pool
size. -/
structure NetState where
  sockfd : Int
  eventMask : Int → Nat
  netWait : List (Int × OpCode)
  clientWait : List (Int × OpCode)
  refcount : Nat
  bufsHeld : Nat
  pool : Nat

/-- Modelled from the spec: `iostate_release` (`iostate.c` is not under
src/) — "Release one refcount; if it reaches zero, free IOState (and
return pooled buffers)". -/
def iostate_release (s : NetState) : NetState :=
  if s.refcount ≤ 1 then
    { s with refcount := 0, pool := s.pool + s.bufsHeld, bufsHeld := 0 }
  else
    { s with refcount := s.refcount - 1 }

/-- Translation of `do_close`: when `sockfd >= 0`, close the backend
socket, clear all events on the fd, discard pending requests keyed by
the fd on both queues, and set `sockfd = -1`; then release one
refcount.  `net_close` itself has no effect on the modelled state. -/
def do_close (s : NetState) : NetState :=
  let s1 :=
    if 0 ≤ s.sockfd then
      { s with
        eventMask := fun fd => if fd = s.sockfd then 0 else s.eventMask fd
        netWait := s.netWait.filter (fun e => e.1 ≠ s.sockfd)
        clientWait := s.clientWait.filter (fun e => e.1 ≠ s.sockfd)
        sockfd := -1 }
    else s
  iostate_release s1

/-! ### `socket_signals_set` / `socket_signals_clear`
(handle_watcher.c, socket_functions.c:1327-1366 in the combined file) -/

/-- Bitwise a AND NOT b on signal masks. -/
def sigDiff (a b : Nat) : Nat :=
  Nat.bitwise (fun x y => x && !y) a b

/-- The per-IOState view of the handle watcher's wait-set: the
`watching_signals` bitset and whether the wait-set currently holds an
entry keyed by this IOState. -/
structure WatchState where
  watching : Nat
  entry : Bool
  deriving DecidableEq, Repr

/-- Outcome oracle for the kernel wait-set edits inside one
`socket_signals_change` call: whether the `mx_waitset_remove` and the
`mx_waitset_add` it may issue succeed. -/
structure WaitsetOracle where
  removeOk : Bool
  addOk : Bool
  deriving DecidableEq, Repr

/-- Translation of `socket_signals_change`: when the old signal set is
non-empty, remove the wait-set entry — on `mx_waitset_remove` failure
the source logs and returns early, leaving everything unchanged; when
the new signal set is non-empty, add a fresh entry — on
`mx_waitset_add` failure the source again returns early, so
`watching_signals` keeps its old value although the entry is already
gone; only after both edits does it store the new set in
`watching_signals`.  A failed kernel edit performs no edit. -/
def socket_signals_change (s : WatchState) (newSigs : Nat)
    (o : WaitsetOracle) : WatchState :=
  if s.watching ≠ 0 then
    if o.removeOk then
      if newSigs ≠ 0 then
        if o.addOk then { watching := newSigs, entry := true }
        else { s with entry := false }
      else { watching := newSigs, entry := false }
    else s
  else
    if newSigs ≠ 0 then
      if o.addOk then { watching := newSigs, entry := true }
      else s
    else { s with watching := newSigs }

/-- Translation of `socket_signals_set`: no-op when every requested bit
is already watched, else change to the union. -/
def socket_signals_set (s : WatchState) (sigs : Nat) (o : WaitsetOracle) :
    WatchState :=
  if s.watching &&& sigs = sigs then s
  else socket_signals_change s (s.watching ||| sigs) o

/-- Translation of `socket_signals_clear`: no-op when no requested bit
is watched, else change to the difference. -/
def socket_signals_clear (s : WatchState) (sigs : Nat) (o : WaitsetOracle) :
    WatchState :=
  if s.watching &&& sigs = 0 then s
  else socket_signals_change s (sigDiff s.watching sigs) o

/-- One call to either helper, for reasoning about arbitrary call
sequences; each call carries the outcomes of its kernel wait-set
edits. -/
inductive SigOp where
  | set (sigs : Nat)
  | clear (sigs : Nat)
  deriving DecidableEq, Repr

/-- Apply a sequence of `socket_signals_set` / `socket_signals_clear`
calls in order. -/
def applySigOps (s : WatchState) :
    List (SigOp × WaitsetOracle) → WatchState
  | [] => s
  | (SigOp.set sigs, o) :: rest =>
    applySigOps (socket_signals_set s sigs o) rest
  | (SigOp.clear sigs, o) :: rest =>
    applySigOps (socket_signals_clear s sigs o) rest

/-- Invariant P1 of the spec: the wait-set has an entry keyed by this
IOState iff `watching_signals` is non-empty. -/
def watchInvariant (s : WatchState) : Prop :=
  s.entry = true ↔ s.watching ≠ 0

/-! ### `do_read_stream` (socket_functions.c:684-753) -/

/-- Inbound-pipeline fields of the IOState used by `do_read_stream`. -/
structure ReadIos where
  rlen : Nat
  roff : Nat
  rbufPresent : Bool
  lastErrno : Int
  deriving DecidableEq, Repr

/-- Oracle for one `do_read_stream` invocation: the `net_read` return
value and errno, the status of the half-close marker write
(`mx_socket_write(MX_SOCKET_HALF_CLOSE)`), and the successive results
of the push-loop's `mx_socket_write` calls as `(status, nwritten)`
pairs. -/
structure ReadStreamOracle where
  netReadN : Int
  netReadErrno : Int
  markerWrite : Status
  pipeWrites : List (Status × Nat)
  deriving DecidableEq, Repr

/-- Result of the handler: a status return, a suspension, or `stuck`
when the finite oracle ran out mid-loop (never reached under a long
enough oracle). -/
inductive RWOutcome where
  | statusR (s : Status)
  | pendingNet
  | pendingSocket
  | stuck
  deriving DecidableEq, Repr

/-- Internal outcome of the push loop. -/
inductive PushOut where
  | drained
  | shouldWait
  | hardErr (s : Status)
  | stuck
  deriving DecidableEq, Repr

/-- The `while (ios->roff < ios->rlen)` push loop of `do_read_stream`:
each iteration writes `rbuf[roff..rlen]` to the data endpoint; success
advances `roff` by `nwritten` (short writes tolerated),
`ERR_SHOULD_WAIT` suspends, any other failure is returned.  Returns
the loop outcome and the final `roff`. -/
def push_loop (rlen : Nat) : List (Status × Nat) → Nat → PushOut × Nat
  | ws, roff =>
    if roff < rlen then
      match ws with
      | [] => (.stuck, roff)
      | (st, nw) :: rest =>
        if st = Status.noError then push_loop rlen rest (roff + nw)
        else if st = Status.errShouldWait then (.shouldWait, roff)
        else (.hardErr st, roff)
    else (.drained, roff)

/-- The `connection_closed:` tail of `do_read_stream`: write the
half-close marker on the data endpoint; `ERR_PEER_CLOSED` is tolerated
and, like success, ends in `return NO_ERROR`; any other write failure
is returned. -/
def read_stream_conn_closed (ios : ReadIos) (marker : Status) :
    RWOutcome × ReadIos × Bool :=
  if marker ≠ Status.noError then
    if marker ≠ Status.errPeerClosed then (.statusR marker, ios, true)
    else (.statusR .noError, ios, true)
  else (.statusR .noError, ios, true)

/-- The push phase plus the full-drain epilogue of `do_read_stream`:
on full drain reset `rlen`/`roff`, rearm `EVENT_READ`, and suspend on
the net queue; on `SHOULD_WAIT` arm client `WRITABLE` and suspend on
the client queue; on a hard error return it. -/
def read_stream_push (ios : ReadIos) (o : ReadStreamOracle) :
    RWOutcome × ReadIos × Bool :=
  match push_loop ios.rlen o.pipeWrites ios.roff with
  | (.drained, _) => (.pendingNet, { ios with rlen := 0, roff := 0 }, false)
  | (.shouldWait, roff1) => (.pendingSocket, { ios with roff := roff1 }, false)
  | (.hardErr st, roff1) => (.statusR st, { ios with roff := roff1 }, false)
  | (.stuck, roff1) => (.stuck, { ios with roff := roff1 }, false)

/-- Translation of `do_read_stream`.  The boolean result records
whether the half-close marker write on the data endpoint was performed.
When `rlen <= 0` the handler pulls from the socket: `n = 0` jumps to
the half-close tail; `EWOULDBLOCK` rearms `EVENT_READ` and suspends on
net; any other errno also jumps to the half-close tail; otherwise the
pulled bytes enter the push phase. -/
def do_read_stream (ios : ReadIos) (o : ReadStreamOracle) :
    RWOutcome × ReadIos × Bool :=
  if ios.rlen = 0 then
    let ios1 := { ios with rbufPresent := true }
    let n := o.netReadN
    let errno_ := if n < 0 then o.netReadErrno else 0
    let ios2 := { ios1 with lastErrno := errno_ }
    if n = 0 then read_stream_conn_closed ios2 o.markerWrite
    else if errno_ = EWOULDBLOCK then (.pendingNet, ios2, false)
    else if errno_ ≠ 0 then read_stream_conn_closed ios2 o.markerWrite
    else read_stream_push { ios2 with rlen := n.toNat, roff := 0 } o
  else read_stream_push ios o

/-! ### `IOCTL_NETC_GET_IF_INFO` (socket_functions.c:543-577) -/

/-- Modelled from the spec: `NETC_IF_INFO_MAX` from `netconfig.h` (not
under src/); the spec states `GET_IF_INFO` returns an array of at most
`NETC_IF_INFO_MAX` entries. -/
def NETC_IF_INFO_MAX : Nat := 16

/-- The `for (index = 0; index < NETC_IF_INFO_MAX; index++)` loop of
the `GET_IF_INFO` ioctl.  `backend i` is the return value of
`net_get_if_info(i, &info)`; per the source comment at the `ret == 0`
check, a zero return means the entry just copied is the last interface.
Arguments: current index, remaining iterations, last `ret` (initially
`-1` before the loop).  Returns `(final ret, final index, number of
entries copied into the reply)`; every non-breaking iteration copies
exactly one entry, so `index` entries were copied when the loop is
entered at `index`. -/
def if_info_loop (backend : Nat → Int) : Nat → Nat → Int → Int × Nat × Nat
  | i, 0, ret => (ret, i, i)
  | i, rem + 1, _ =>
    let ret := backend i
    if ret < 0 then (ret, i, i)
    else if ret = 0 then (ret, i, i + 1)
    else if_info_loop backend (i + 1) rem ret

/-- Translation of the `IOCTL_NETC_GET_IF_INFO` arm of `do_ioctl`:
run the enumeration loop; if it ended with `ret < 0` the reply is an
error status with no payload (`n_info` is left at the memset value 0);
otherwise the reply carries `n_info = index`.  Returns
`(reply status, n_info, entries copied)`; `errnoAtFail` is the errno
observed when the backend call failed. -/
def do_get_if_info (backend : Nat → Int) (max : Nat) (errnoAtFail : Int) :
    Status × Nat × Nat :=
  let res := if_info_loop backend 0 max (-1)
  if res.1 < 0 then (errno_to_status errnoAtFail, 0, res.2.2)
  else (.noError, res.2.1, res.2.2)

/-- Predicate relating a backend oracle to "reports exactly `n`
interfaces", following the source comment convention: indices before
the last return a positive value, the last valid index `n - 1` returns
0 ("this is the last if").  Only indices below `n` are ever queried by
a loop bounded by `n`. -/
def reportsExactly (backend : Nat → Int) (n : Nat) : Prop :=
  0 < n ∧ (∀ i < n - 1, 0 < backend i) ∧ backend (n - 1) = 0

/-- A concrete backend oracle reporting exactly `NETC_IF_INFO_MAX`
interfaces, for the C4 counterexample. -/
def backendFull : Nat → Int := fun i =>
  if i + 1 < NETC_IF_INFO_MAX then 1
  else if i + 1 = NETC_IF_INFO_MAX then 0
  else -1

/-! ### Helper lemmas -/

/-- `socket_signals_change` preserves invariant P1 regardless of the
new signal set, provided both kernel wait-set edits succeed. -/
theorem socket_signals_change_invariant (s : WatchState) (n : Nat)
    (o : WaitsetOracle) (ho1 : o.removeOk = true) (ho2 : o.addOk = true)
    (h : watchInvariant s) :
    watchInvariant (socket_signals_change s n o) := by
  unfold watchInvariant socket_signals_change
  rw [ho1, ho2]
  by_cases hn : n ≠ 0 <;> by_cases hw : s.watching ≠ 0 <;>
    simp only [hn, hw, if_true, if_false, ite_true, ite_false, if_pos, if_neg,
      not_true, not_false_iff] <;>
    simp_all [watchInvariant]

/-- `socket_signals_set` preserves invariant P1 when its kernel edits
succeed. -/
theorem socket_signals_set_invariant (s : WatchState) (sigs : Nat)
    (o : WaitsetOracle) (ho1 : o.removeOk = true) (ho2 : o.addOk = true)
    (h : watchInvariant s) :
    watchInvariant (socket_signals_set s sigs o) := by
  unfold socket_signals_set
  split
  · exact h
  · exact socket_signals_change_invariant s _ o ho1 ho2 h

/-- `socket_signals_clear` preserves invariant P1 when its kernel edits
succeed. -/
theorem socket_signals_clear_invariant (s : WatchState) (sigs : Nat)
    (o : WaitsetOracle) (ho1 : o.removeOk = true) (ho2 : o.addOk = true)
    (h : watchInvariant s) :
    watchInvariant (socket_signals_clear s sigs o) := by
  unfold socket_signals_clear
  split
  · exact h
  · exact socket_signals_change_invariant s _ o ho1 ho2 h

/-- `iostate_release` does not touch the socket fd. -/
theorem iostate_release_sockfd (s : NetState) :
    (iostate_release s).sockfd = s.sockfd := by
  unfold iostate_release; split <;> rfl

/-- `iostate_release` does not touch the event-mask table. -/
theorem iostate_release_eventMask (s : NetState) :
    (iostate_release s).eventMask = s.eventMask := by
  unfold iostate_release; split <;> rfl

/-- `iostate_release` does not touch the net-wait queue. -/
theorem iostate_release_netWait (s : NetState) :
    (iostate_release s).netWait = s.netWait := by
  unfold iostate_release; split <;> rfl

/-- `iostate_release` does not touch the client-wait queue. -/
theorem iostate_release_clientWait (s : NetState) :
    (iostate_release s).clientWait = s.clientWait := by
  unfold iostate_release; split <;> rfl

/-- `iostate_release` decrements the refcount (to zero at the end of
life). -/
theorem iostate_release_refcount (s : NetState) :
    (iostate_release s).refcount = s.refcount - 1 := by
  unfold iostate_release
  split
  · simp only []
    omega
  · rfl

/-- After `do_close` the socket fd is negative. -/
theorem do_close_sockfd_neg (s : NetState) : (do_close s).sockfd < 0 := by
  unfold do_close
  rw [iostate_release_sockfd]
  split
  · simp
  · omega

/-- On a state whose fd is already closed, `do_close` only releases a
refcount. -/
theorem do_close_of_neg (t : NetState) (ht : t.sockfd < 0) :
    do_close t = iostate_release t := by
  unfold do_close
  rw [if_neg (by omega)]

/-! ### Claim C1 (`do_sigconn_w`) -/

/-- Claim C1 counterexample: with a stream IOState whose `SO_ERROR`
reads back as 111 (ECONNREFUSED) — `getsockopt` itself succeeding — the
handler still sets the client-side `OUTGOING` signal, although the
claim says the signal is set only when `SO_ERROR` is zero.  (The source
sets `OUTGOING` unconditionally before reading `SO_ERROR`.) -/
theorem do_sigconn_w_outgoing_on_error :
    (do_sigconn_w .htStream 0 0 0 111).outgoingSet = true ∧
    (111 : Int) ≠ 0 ∧
    (do_sigconn_w .htStream 0 0 0 111).rwScheduled = false := by
  decide

/-- Claim C1 amended: for a stream IOState, `do_sigconn_w` sets the
client-side `OUTGOING` signal unconditionally (before reading
`SO_ERROR`), always returns `NO_ERROR`, and schedules read/write iff
the `getsockopt(SO_ERROR)` call succeeded and the value read is zero. -/
theorem do_sigconn_w_amended :
    ∀ le gr ge v : Int,
      (do_sigconn_w .htStream le gr ge v).outgoingSet = true ∧
      (do_sigconn_w .htStream le gr ge v).status = Status.noError ∧
      ((do_sigconn_w .htStream le gr ge v).rwScheduled = true ↔
        (if gr < 0 then ge else 0) = 0 ∧ v = 0) := by
  intro le gr ge v
  unfold do_sigconn_w
  by_cases h : (if gr < 0 then ge else 0) = 0 <;> simp [h]

/-- Claim C1 witness: at a successfully completed connection
(`SO_ERROR = 0`), `OUTGOING` is set and read/write is scheduled. -/
theorem do_sigconn_w_amended_witness :
    (do_sigconn_w .htStream 0 0 0 0).outgoingSet = true ∧
    (do_sigconn_w .htStream 0 0 0 0).rwScheduled = true :=
  ⟨(do_sigconn_w_amended 0 0 0 0).1,
   (do_sigconn_w_amended 0 0 0 0).2.2.mpr (by decide)⟩

/-! ### Claim C2 (`do_accept` on `EAGAIN`/`EWOULDBLOCK`) -/

/-- Claim C2 counterexample: on a listening stream IOState with fd 7,
when `net_accept` fails with `EAGAIN`/`EWOULDBLOCK`, `do_accept`
returns `ERR_SHOULD_WAIT` but performs no side effects at all — in
particular neither `EVENT_READ` arming nor a `SIGCONN_R` request on
the net-wait queue happens, contradicting the claimed rearm. -/
theorem do_accept_eagain_no_rearm :
    (do_accept .htStream 7 ⟨-1, EWOULDBLOCK, 0, 0, .noError⟩).status =
      Status.errShouldWait ∧
    (do_accept .htStream 7 ⟨-1, EWOULDBLOCK, 0, 0, .noError⟩).actions = [] ∧
    Act.waitQueuePut .net 7 .opSigconnR ∉
      (do_accept .htStream 7 ⟨-1, EWOULDBLOCK, 0, 0, .noError⟩).actions := by
  decide

/-- Claim C2 amended: when backend accept fails with
`EAGAIN`/`EWOULDBLOCK`, `do_accept` reports `SHOULD_WAIT` and returns
immediately without rearming `SIGCONN_R` (no actions at all);
`SIGCONN_R` is rearmed (EVENT_READ armed and a `SIGCONN_R` request
queued on net-wait) only on the paths where `net_accept` succeeded. -/
theorem do_accept_amended :
    ∀ (ht : HType) (fd : Int) (o : AcceptOracle),
      (o.acceptRet < 0 → o.acceptErrno = EWOULDBLOCK →
        do_accept ht fd o =
          { status := .errShouldWait, actions := [],
            lastErrno := EWOULDBLOCK }) ∧
      (0 ≤ o.acceptRet →
        Act.fdEventSet fd EVENT_READ ∈ (do_accept ht fd o).actions ∧
        Act.waitQueuePut .net fd .opSigconnR ∈ (do_accept ht fd o).actions) := by
  intro ht fd o
  constructor
  · intro hlt herr
    unfold do_accept
    rw [if_pos hlt, herr]
    rw [if_pos (by decide : (EWOULDBLOCK : Int) ≠ 0)]
    have : errno_to_status EWOULDBLOCK = Status.errShouldWait := by decide
    rw [this]
  · intro hge
    unfold do_accept
    rw [if_neg (by omega : ¬ o.acceptRet < 0)]
    rw [if_neg (by simp : ¬ (0 : Int) ≠ 0)]
    repeat' split
    all_goals
      by_cases hfe : o.fionbioErrno = 0 <;>
      simp [hfe, schedule_sigconn_r, schedule_rw, schedule_r, schedule_w,
        List.mem_append]

/-- Claim C2 witness: a successful accept (new fd 3) on listening fd 7
does rearm `SIGCONN_R`. -/
theorem do_accept_amended_witness :
    Act.fdEventSet 7 EVENT_READ ∈
      (do_accept .htStream 7 ⟨3, 0, 0, 0, .noError⟩).actions ∧
    Act.waitQueuePut .net 7 .opSigconnR ∈
      (do_accept .htStream 7 ⟨3, 0, 0, 0, .noError⟩).actions :=
  (do_accept_amended .htStream 7 ⟨3, 0, 0, 0, .noError⟩).2 (by decide)

/-! ### Claim C6 (`CLOSE` idempotence) -/

/-- Concrete pre-state for the C6 counterexample: live fd 3, one
pending request on each queue, refcount 2 (RIO endpoint + data
endpoint), one buffer held, empty pool. -/
def closeS0 : NetState :=
  { sockfd := 3
    eventMask := fun _ => EVENT_ALL
    netWait := [(3, .opRead)]
    clientWait := [(3, .opWrite)]
    refcount := 2
    bufsHeld := 1
    pool := 0 }

/-- Claim C6 counterexample: running the CLOSE handler a second time
after a completed CLOSE does not leave all observable state unchanged —
the second run releases another refcount (2 → 1 → 0) and, on reaching
zero, frees the IOState and returns its held buffer to the pool
(pool 0 → 1). -/
theorem do_close_not_idempotent :
    (do_close closeS0).refcount = 1 ∧
    (do_close (do_close closeS0)).refcount = 0 ∧
    (do_close closeS0).pool = 0 ∧
    (do_close (do_close closeS0)).pool = 1 :=
  ⟨rfl, rfl, rfl, rfl⟩

/-- Claim C6 amended: a second CLOSE leaves the socket fd, the per-fd
event masks, and both wait queues exactly as after the first CLOSE
(that part of the handler is idempotent, guarded by `sockfd >= 0`), but
it unconditionally releases one more refcount: the second run is
exactly `iostate_release` of the first run's state. -/
theorem do_close_amended :
    ∀ s : NetState,
      do_close (do_close s) = iostate_release (do_close s) ∧
      (do_close (do_close s)).sockfd = (do_close s).sockfd ∧
      (do_close (do_close s)).eventMask = (do_close s).eventMask ∧
      (do_close (do_close s)).netWait = (do_close s).netWait ∧
      (do_close (do_close s)).clientWait = (do_close s).clientWait ∧
      (do_close (do_close s)).refcount = (do_close s).refcount - 1 := by
  intro s
  have key : do_close (do_close s) = iostate_release (do_close s) :=
    do_close_of_neg _ (do_close_sockfd_neg s)
  refine ⟨key, ?_, ?_, ?_, ?_, ?_⟩ <;> rw [key]
  · exact iostate_release_sockfd _
  · exact iostate_release_eventMask _
  · exact iostate_release_netWait _
  · exact iostate_release_clientWait _
  · exact iostate_release_refcount _

/-! ### Claim C7 (invariant P1 for the wait-set) -/

/-- Claim C7 counterexample: on an IOState watching signal 1 (P1
holds: entry present), a single `socket_signals_set` of signal 2 in
which the kernel `mx_waitset_remove` succeeds but the subsequent
`mx_waitset_add` fails takes the early return of
`socket_signals_change`: the entry is already gone but
`watching_signals` keeps its old non-empty value 1 — P1 is violated,
so the claimed invariant does not survive every call sequence. -/
theorem socket_signals_waitset_failure :
    watchInvariant ⟨1, true⟩ ∧
    socket_signals_set ⟨1, true⟩ 2 ⟨true, false⟩ = ⟨1, false⟩ ∧
    ¬ watchInvariant (socket_signals_set ⟨1, true⟩ 2 ⟨true, false⟩) := by
  have hres : socket_signals_set ⟨1, true⟩ 2 ⟨true, false⟩ = ⟨1, false⟩ := by
    decide
  refine ⟨by simp [watchInvariant], hres, ?_⟩
  rw [hres]
  simp [watchInvariant]

/-- Claim C7 amended: for every live IOState, after any sequence of
`socket_signals_set` and `socket_signals_clear` calls in which every
kernel wait-set edit succeeds, starting from a state satisfying
invariant P1 (in particular a fresh IOState, which watches nothing and
has no wait-set entry), the wait-set has an entry keyed by the IOState
iff `watching_signals` is non-empty; when an `mx_waitset_add` fails
after a successful `mx_waitset_remove`, the early return leaves
`watching_signals` non-empty with no entry, so P1 does not survive
kernel edit failures. -/
theorem socket_signals_invariant :
    ∀ (ops : List (SigOp × WaitsetOracle)) (s : WatchState),
      (∀ p ∈ ops, p.2.removeOk = true ∧ p.2.addOk = true) →
      watchInvariant s → watchInvariant (applySigOps s ops) := by
  intro ops
  induction ops with
  | nil => intro s _ h; exact h
  | cons p rest ih =>
    intro s hok h
    obtain ⟨op, o⟩ := p
    have ho := hok (op, o) (List.mem_cons_self _ _)
    have hrest := fun q hq => hok q (List.mem_cons_of_mem _ hq)
    cases op with
    | set sigs =>
      exact ih _ hrest (socket_signals_set_invariant s sigs o ho.1 ho.2 h)
    | clear sigs =>
      exact ih _ hrest (socket_signals_clear_invariant s sigs o ho.1 ho.2 h)

/-- Claim C7 witness: from a fresh IOState (nothing watched, no entry),
arming `PEER_CLOSED | HALFCLOSED` and then clearing `PEER_CLOSED`,
with every kernel edit succeeding, keeps P1. -/
theorem socket_signals_invariant_witness :
    watchInvariant
      (applySigOps ⟨0, false⟩
        [(SigOp.set (MX_SOCKET_PEER_CLOSED + MXSIO_SIGNAL_HALFCLOSED),
          ⟨true, true⟩),
         (SigOp.clear MX_SOCKET_PEER_CLOSED, ⟨true, true⟩)]) :=
  socket_signals_invariant _ ⟨0, false⟩ (by decide)
    (by simp [watchInvariant])

/-- Claim C9: the errno-to-status mapping is exactly as specified —
`EACCES ↦ ACCESS_DENIED`, `EBADF ↦ BAD_HANDLE`,
`EINPROGRESS, EWOULDBLOCK ↦ SHOULD_WAIT`, `EINVAL ↦ INVALID_ARGS`,
`EIO ↦ IO`, `ENOBUFS ↦ NO_RESOURCES`, `ENOMEM ↦ NO_MEMORY`, and every
other errno value maps to `IO`; the function is total over `Int` by
construction. -/
theorem errno_to_status_exact :
    errno_to_status EACCES = Status.errAccessDenied ∧
    errno_to_status EBADF = Status.errBadHandle ∧
    errno_to_status EINPROGRESS = Status.errShouldWait ∧
    errno_to_status EWOULDBLOCK = Status.errShouldWait ∧
    errno_to_status EINVAL = Status.errInvalidArgs ∧
    errno_to_status Eio = Status.errIo ∧
    errno_to_status ENOBUFS = Status.errNoResources ∧
    errno_to_status ENOMEM = Status.errNoMemory ∧
    ∀ e : Int,
      e ∉ ([EACCES, EBADF, EINPROGRESS, EINVAL, Eio, ENOBUFS, ENOMEM,
            EWOULDBLOCK] : List Int) →
      errno_to_status e = Status.errIo := by
  refine ⟨by decide, by decide, by decide, by decide, by decide, by decide,
    by decide, by decide, ?_⟩
  intro e he
  simp only [List.mem_cons, List.not_mem_nil, or_false, not_or] at he
  obtain ⟨h1, h2, h3, h4, h5, h6, h7, h8⟩ := he
  simp only [errno_to_status, if_neg h1, if_neg h2, if_neg h3, if_neg h4,
    if_neg h5, if_neg h6, if_neg h7, if_neg h8]

/-- Claim C9 witness: a concrete unlisted errno (7 = E2BIG) maps to
`ERR_IO` via the theorem's universally quantified clause. -/
theorem errno_to_status_exact_witness :
    (7 : Int) ∉ ([EACCES, EBADF, EINPROGRESS, EINVAL, Eio, ENOBUFS, ENOMEM,
        EWOULDBLOCK] : List Int) ∧
    errno_to_status 7 = Status.errIo :=
  ⟨by decide, errno_to_status_exact.2.2.2.2.2.2.2.2 7 (by decide)⟩

/-! ### Claim C8 (`do_open` payload-length bounds) -/

/-- Claim C8: an `OPEN` payload length of 0, and any length above 1024,
makes `do_open` reply `INVALID_ARGS` and skip all sub-handlers — the
`goto reply` jumps straight past the `do_none` / `do_socket` /
`do_accept` dispatch. -/
theorem do_open_length_bounds :
    ∀ (datalen : Nat) (path : List Char) (sub : SubH → Status) (wr : Status),
      datalen = 0 ∨ 1024 < datalen →
      (do_open datalen path sub wr).replyStatus = Status.errInvalidArgs ∧
      (do_open datalen path sub wr).subHandler = none := by
  intro dl path sub wr h
  have hb : dl < 1 ∨ 1024 < dl := by omega
  unfold do_open
  rw [if_pos hb]
  exact ⟨rfl, rfl⟩

/-- Claim C8 witness: the zero-length payload (with an arbitrary path
and sub-handler table) is rejected without dispatch. -/
theorem do_open_length_bounds_witness :
    (do_open 0 [] (fun _ => Status.noError) Status.noError).replyStatus =
      Status.errInvalidArgs ∧
    (do_open 0 [] (fun _ => Status.noError) Status.noError).subHandler =
      none :=
  do_open_length_bounds 0 [] (fun _ => Status.noError) Status.noError
    (Or.inl rfl)

/-! ### Claim C10 (`do_open` reply contract) -/

/-- Claim C10: for every `OPEN` request — whatever the selected
sub-handler returns, and whatever the reply write returns (the model
takes the write result as an explicit, unused input) — `do_open`
returns `NO_ERROR` to the operation router, writes exactly one reply
envelope on the originating channel handle, and closes that handle;
the sub-handler's status is visible only inside the reply envelope. -/
theorem do_open_reply_contract :
    ∀ (datalen : Nat) (path : List Char) (sub : SubH → Status) (wr : Status),
      (do_open datalen path sub wr).returnValue = Status.noError ∧
      (do_open datalen path sub wr).repliesWritten = 1 ∧
      (do_open datalen path sub wr).handleClosed = true ∧
      ∀ h : SubH, (do_open datalen path sub wr).subHandler = some h →
        (do_open datalen path sub wr).replyStatus = sub h := by
  intro dl path sub wr
  unfold do_open
  split
  · refine ⟨rfl, rfl, rfl, ?_⟩
    intro h hh
    simp at hh
  · refine ⟨rfl, rfl, rfl, ?_⟩
    intro h hh
    by_cases h1 : (match_subdir path MXRIO_SOCKET_DIR_NONE).isSome <;>
      by_cases h2 : (match_subdir path MXRIO_SOCKET_DIR_SOCKET).isSome <;>
      by_cases h3 : (match_subdir path MXRIO_SOCKET_DIR_ACCEPT).isSome <;>
      simp [h1, h2, h3] at hh ⊢ <;>
      simp [← hh]

/-- Claim C10 witness: opening path `none` with a failing sub-handler
(`ERR_IO`) still returns `NO_ERROR` to the router, with the failure
only in the reply status. -/
theorem do_open_reply_contract_witness :
    (do_open 4 MXRIO_SOCKET_DIR_NONE (fun _ => Status.errIo)
        Status.noError).returnValue = Status.noError ∧
    (do_open 4 MXRIO_SOCKET_DIR_NONE (fun _ => Status.errIo)
        Status.noError).replyStatus = Status.errIo :=
  ⟨(do_open_reply_contract 4 MXRIO_SOCKET_DIR_NONE (fun _ => Status.errIo)
      Status.noError).1,
   (do_open_reply_contract 4 MXRIO_SOCKET_DIR_NONE (fun _ => Status.errIo)
      Status.noError).2.2.2 SubH.subNone (by decide)⟩

/-! ### Claim C4 (`GET_IF_INFO` with a full interface table) -/

/-- Claim C4 counterexample: `backendFull` reports exactly
`NETC_IF_INFO_MAX` (16) interfaces (positive return below the last
index, zero — "this is the last if" — at index 15), yet the handler
sets `n_info` to 15, not 16, although 16 entries were copied into the
reply. -/
theorem do_get_if_info_undercount :
    reportsExactly backendFull NETC_IF_INFO_MAX ∧
    do_get_if_info backendFull NETC_IF_INFO_MAX 0 =
      (Status.noError, NETC_IF_INFO_MAX - 1, NETC_IF_INFO_MAX) ∧
    NETC_IF_INFO_MAX - 1 ≠ NETC_IF_INFO_MAX := by
  refine ⟨⟨by decide, by decide, by decide⟩, by decide, by decide⟩

/-- The enumeration loop under a backend that reports exactly
`i + rem` interfaces (counting from start index `i`): it stops at the
`ret == 0` break on the last index, having copied every entry but
reporting the last index, not the count. -/
theorem if_info_loop_exact (backend : Nat → Int) :
    ∀ (rem i : Nat) (r0 : Int), 0 < rem →
      (∀ j, i ≤ j → j + 1 < i + rem → 0 < backend j) →
      backend (i + rem - 1) = 0 →
      if_info_loop backend i rem r0 = (0, i + rem - 1, i + rem) := by
  intro rem
  induction rem with
  | zero => intro i r0 h; omega
  | succ rem ih =>
    intro i r0 _ hpos hlast
    rw [if_info_loop]
    rcases Nat.eq_zero_or_pos rem with hr0 | hrpos
    · subst hr0
      have hb : backend i = 0 := by
        have : i + 1 - 1 = i := by omega
        rw [← this]
        exact hlast
      rw [hb]
      norm_num
    · have hb : 0 < backend i := hpos i (le_refl i) (by omega)
      rw [if_neg (by omega), if_neg (by omega)]
      have := ih (i + 1) (backend i) hrpos
        (fun j hj hj2 => hpos j (by omega) (by omega))
        (by have : i + 1 + rem - 1 = i + (rem + 1) - 1 := by omega
            rw [this]; exact hlast)
      rw [this]
      have e1 : i + 1 + rem - 1 = i + (rem + 1) - 1 := by omega
      have e2 : i + 1 + rem = i + (rem + 1) := by omega
      rw [e1, e2]

/-- Claim C4 amended: for every backend that reports exactly
`NETC_IF_INFO_MAX` interfaces (in the source's convention: positive
return before the last index, zero at the last), the `GET_IF_INFO`
handler copies exactly `NETC_IF_INFO_MAX` entries into the reply but
sets `n_info` to `NETC_IF_INFO_MAX - 1` — the index at which the loop
broke — undercounting the copied entries by one. -/
theorem do_get_if_info_amended :
    ∀ (backend : Nat → Int) (max : Nat) (e : Int),
      reportsExactly backend max →
      do_get_if_info backend max e = (Status.noError, max - 1, max) := by
  intro backend max e ⟨hmax, hmid, hlast⟩
  unfold do_get_if_info
  have hloop := if_info_loop_exact backend max 0 (-1) hmax
    (fun j hj hj2 => hmid j (by omega))
    (by simpa using hlast)
  simp only [Nat.zero_add] at hloop
  rw [hloop]
  norm_num

/-- Claim C4 witness: the amended statement instantiated at
`backendFull` (exactly 16 interfaces): 16 entries copied, `n_info` 15. -/
theorem do_get_if_info_amended_witness :
    do_get_if_info backendFull NETC_IF_INFO_MAX 5 =
      (Status.noError, NETC_IF_INFO_MAX - 1, NETC_IF_INFO_MAX) :=
  do_get_if_info_amended backendFull NETC_IF_INFO_MAX 5
    ⟨by decide, by decide, by decide⟩

/-! ### Claim C5 (`do_read_stream` half-close path) -/

/-- Claim C5: whenever the backend read in the pull phase returns 0
bytes or fails with a hard error (a nonzero errno other than
`EWOULDBLOCK`), `do_read_stream` writes the half-close marker on the
data endpoint and returns `OK`; if the marker write itself fails with
`ERR_PEER_CLOSED` the handler still returns `OK`, while any other
marker-write failure is returned as the status. -/
theorem do_read_stream_halfclose :
    ∀ (ios : ReadIos) (o : ReadStreamOracle),
      ios.rlen = 0 →
      (o.netReadN = 0 ∨
        (o.netReadN < 0 ∧ o.netReadErrno ≠ EWOULDBLOCK ∧
         o.netReadErrno ≠ 0)) →
      (do_read_stream ios o).2.2 = true ∧
      ((o.markerWrite = Status.noError ∨
        o.markerWrite = Status.errPeerClosed) →
        (do_read_stream ios o).1 = RWOutcome.statusR Status.noError) ∧
      (o.markerWrite ≠ Status.noError →
        o.markerWrite ≠ Status.errPeerClosed →
        (do_read_stream ios o).1 = RWOutcome.statusR o.markerWrite) := by
  intro ios o h0 hcase
  have key :
      do_read_stream ios o =
        read_stream_conn_closed
          { ios with
            rbufPresent := true
            lastErrno := (if o.netReadN < 0 then o.netReadErrno else 0) }
          o.markerWrite := by
    unfold do_read_stream
    rw [if_pos h0]
    rcases hcase with hz | ⟨hneg, hwb, hnz⟩
    · rw [if_pos hz]
    · rw [if_neg (by omega : ¬ o.netReadN = 0)]
      rw [if_pos hneg, if_neg hwb, if_pos hnz]
  rw [key]
  unfold read_stream_conn_closed
  by_cases hm : o.markerWrite = Status.noError
  · simp [hm]
  · by_cases hp : o.markerWrite = Status.errPeerClosed
    · simp [hm, hp]
    · refine ⟨?_, ?_, ?_⟩
      · simp [hm, hp]
      · rintro (h | h) <;> [exact absurd h hm; exact absurd h hp]
      · intro _ _
        simp [hm, hp]

/-- Claim C5 witness: orderly EOF (`net_read` returned 0) with a
successful marker write yields `OK` and the marker on the endpoint. -/
theorem do_read_stream_halfclose_witness :
    (do_read_stream ⟨0, 0, false, 0⟩ ⟨0, 0, Status.noError, []⟩).2.2 =
      true ∧
    (do_read_stream ⟨0, 0, false, 0⟩ ⟨0, 0, Status.noError, []⟩).1 =
      RWOutcome.statusR Status.noError := by
  have h := do_read_stream_halfclose ⟨0, 0, false, 0⟩
    ⟨0, 0, Status.noError, []⟩ rfl (Or.inl rfl)
  exact ⟨h.1, h.2.1 (Or.inl rfl)⟩

/-! ### Character-class and `strtol` lemmas for the parser -/

/-- Every whitespace character precedes `'0'` in the character order. -/
theorem space_lt_zero (c : Char) (h : isSpaceC c = true) : c < '0' := by
  simp only [isSpaceC, Bool.or_eq_true, decide_eq_true_eq] at h
  rcases h with ((((rfl | rfl) | rfl) | rfl) | rfl) | rfl <;> decide

/-- A decimal digit is not whitespace. -/
theorem digit_not_space (c : Char) (h : isDigitC c = true) :
    isSpaceC c = false := by
  cases hs : isSpaceC c with
  | false => rfl
  | true =>
    simp only [isDigitC, Bool.and_eq_true, decide_eq_true_eq] at h
    exact absurd h.1 (not_le.mpr (space_lt_zero c hs))

/-- A decimal digit differs from every non-digit character. -/
theorem digit_ne (c : Char) (h : isDigitC c = true) (x : Char)
    (hx : isDigitC x = false) : c ≠ x := by
  rintro rfl
  rw [h] at hx
  exact Bool.noConfusion hx

/-- `dropWhile` does not move past a head that fails the predicate. -/
theorem dropWhile_not_head (p : Char → Bool) (c : Char) (t : List Char)
    (h : p c = false) : (c :: t).dropWhile p = c :: t := by
  simp [List.dropWhile_cons, h]

/-- `takeWhile isDigitC` consumes exactly a leading run of digits. -/
theorem takeWhile_append_digits :
    ∀ ds rest : List Char, (∀ c ∈ ds, isDigitC c = true) →
      headNotDigit rest → (ds ++ rest).takeWhile isDigitC = ds
  | [], rest, _, hr => by
    cases rest with
    | nil => rfl
    | cons c t =>
      have hc : isDigitC c = false := hr
      simp [List.takeWhile_cons, hc]
  | d :: ds, rest, h, hr => by
    have hd := h d (List.mem_cons_self _ _)
    simp only [List.cons_append, List.takeWhile_cons, hd, if_true]
    rw [takeWhile_append_digits ds rest
      (fun c hc => h c (List.mem_cons_of_mem _ hc)) hr]

/-- `dropWhile isDigitC` drops exactly a leading run of digits. -/
theorem dropWhile_append_digits :
    ∀ ds rest : List Char, (∀ c ∈ ds, isDigitC c = true) →
      headNotDigit rest → (ds ++ rest).dropWhile isDigitC = rest
  | [], rest, _, hr => by
    cases rest with
    | nil => rfl
    | cons c t =>
      have hc : isDigitC c = false := hr
      exact dropWhile_not_head _ _ _ hc
  | d :: ds, rest, h, hr => by
    have hd := h d (List.mem_cons_self _ _)
    simp only [List.cons_append, List.dropWhile_cons, hd, if_true]
    exact dropWhile_append_digits ds rest
      (fun c hc => h c (List.mem_cons_of_mem _ hc)) hr

/-- `strtol` on a nonempty run of digits followed by a non-digit (or
the string end): it converts exactly that run and stops there, with no
range error when the value fits. -/
theorem strtol10_digits_ne (d : Char) (ds' rest : List Char)
    (hds : ∀ c ∈ d :: ds', isDigitC c = true)
    (hrest : headNotDigit rest)
    (hrange : (natOfDigits (d :: ds') : Int) ≤ LONG_MAX) :
    strtol10 (d :: ds' ++ rest) =
      ⟨(natOfDigits (d :: ds') : Int), rest, false⟩ := by
  have hd := hds d (List.mem_cons_self _ _)
  have hspace := digit_not_space d hd
  have hminus : d ≠ '-' := digit_ne d hd '-' (by decide)
  have hplus : d ≠ '+' := digit_ne d hd '+' (by decide)
  unfold strtol10
  rw [List.cons_append, dropWhile_not_head isSpaceC d (ds' ++ rest) hspace]
  unfold strtolSign
  rw [if_neg (by simp [hminus]), if_neg (by simp [hplus])]
  unfold strtolNum
  rw [← List.cons_append]
  rw [takeWhile_append_digits _ _ hds hrest,
    dropWhile_append_digits _ _ hds hrest]
  rw [if_neg (by simp : ¬ ((d :: ds' : List Char) = []))]
  have hval : strtolVal false (d :: ds') = (natOfDigits (d :: ds') : Int) := by
    simp [strtolVal]
  rw [hval]
  rw [if_neg (not_lt.mpr hrange)]
  rw [if_neg (not_lt.mpr (le_trans (by decide : LONG_MIN ≤ (0 : Int))
    (Int.ofNat_nonneg _)))]

/-- `strtol` performs no conversion when the first character (after no
whitespace) is unusable: the value is 0 and the end pointer is reset to
the start of the input. -/
theorem strtol10_hard (rest : List Char) (hrest : headHard rest) :
    strtol10 rest = ⟨0, rest, false⟩ := by
  cases rest with
  | nil => rfl
  | cons c t =>
    obtain ⟨hdig, hsp, hp, hm⟩ := hrest
    unfold strtol10
    rw [dropWhile_not_head _ _ _ hsp]
    unfold strtolSign
    rw [if_neg (by simp [hm]), if_neg (by simp [hp])]
    unfold strtolNum
    rw [if_pos (by simp [List.takeWhile_cons, hdig])]

/-- `strtol` on a possibly empty run of digits followed by an unusable
character (or the string end). -/
theorem strtol10_digits (ds rest : List Char)
    (hds : ∀ c ∈ ds, isDigitC c = true) (hrest : headHard rest)
    (hrange : (natOfDigits ds : Int) ≤ LONG_MAX) :
    strtol10 (ds ++ rest) = ⟨(natOfDigits ds : Int), rest, false⟩ := by
  cases ds with
  | nil => simpa [natOfDigits] using strtol10_hard rest hrest
  | cons d ds' =>
    have hrest' : headNotDigit rest := by
      cases rest with
      | nil => trivial
      | cons c t => exact hrest.1
    exact strtol10_digits_ne d ds' rest hds hrest' hrange

/-- A `'/'` can never be part of what `strtol` consumes. -/
theorem headHard_slash (rest : List Char) : headHard ('/' :: rest) :=
  ⟨by decide, by decide, by decide, by decide⟩

/-- `parse_first` steps over a `'/'` separator, storing the first
value truncated to `int`. -/
theorem parse_first_slash (v : Int) (rest : List Char) :
    parse_first ⟨v, '/' :: rest, false⟩ =
      parse_second (toInt32 v) (strtol10 rest) := by
  simp [parse_first]

/-- `parse_first` rejects when the first `strtol` did not stop at
`'/'`. -/
theorem parse_first_nonslash (v : Int) (rest : List Char)
    (h : ¬ rest.head? = some '/') : parse_first ⟨v, rest, false⟩ = none := by
  simp [parse_first, h]

/-- `parse_second` steps over a `'/'` separator, storing the second
value truncated to `int`. -/
theorem parse_second_slash (v w : Int) (rest : List Char) :
    parse_second v ⟨w, '/' :: rest, false⟩ =
      parse_third v (toInt32 w) (strtol10 rest) := by
  simp [parse_second]

/-- `parse_second` rejects when the second `strtol` did not stop at
`'/'`. -/
theorem parse_second_nonslash (v w : Int) (rest : List Char)
    (h : ¬ rest.head? = some '/') :
    parse_second v ⟨w, rest, false⟩ = none := by
  simp [parse_second, h]

/-- `parse_third` succeeds exactly at the end of the string, storing
the third value truncated to `int`. -/
theorem parse_third_nil (v w x : Int) :
    parse_third v w ⟨x, [], false⟩ = some (v, w, toInt32 x) := by
  simp [parse_third]

/-- `parse_third` rejects trailing garbage after the third integer. -/
theorem parse_third_cons (v w x : Int) (c : Char) (rest : List Char) :
    parse_third v w ⟨x, c :: rest, false⟩ = none := by
  simp [parse_third]

/-- Valid inputs: three runs of digits (possibly empty, an empty run
parsing as 0) separated by `'/'`, values within `long` range; each
value is stored through an `int` out parameter, hence truncated. -/
theorem parse_socket_args_valid (d t p : List Char)
    (hd : ∀ c ∈ d, isDigitC c = true) (ht : ∀ c ∈ t, isDigitC c = true)
    (hp : ∀ c ∈ p, isDigitC c = true)
    (hd2 : (natOfDigits d : Int) ≤ LONG_MAX)
    (ht2 : (natOfDigits t : Int) ≤ LONG_MAX)
    (hp2 : (natOfDigits p : Int) ≤ LONG_MAX) :
    parse_socket_args (d ++ '/' :: (t ++ '/' :: p)) =
      some (toInt32 (natOfDigits d : Int), toInt32 (natOfDigits t : Int),
        toInt32 (natOfDigits p : Int)) := by
  unfold parse_socket_args
  rw [strtol10_digits d ('/' :: (t ++ '/' :: p)) hd (headHard_slash _) hd2]
  rw [parse_first_slash]
  rw [strtol10_digits t ('/' :: p) ht (headHard_slash _) ht2]
  rw [parse_second_slash]
  have e3 : strtol10 p = ⟨(natOfDigits p : Int), [], false⟩ := by
    have h := strtol10_digits p [] hp trivial hp2
    simpa using h
  rw [e3, parse_third_nil]

/-- Trailing garbage: a non-digit character after a nonempty third
digit run is rejected. -/
theorem parse_socket_args_trailing (d t : List Char) (q : Char)
    (qs rest : List Char) (c : Char)
    (hd : ∀ x ∈ d, isDigitC x = true) (ht : ∀ x ∈ t, isDigitC x = true)
    (hq : ∀ x ∈ q :: qs, isDigitC x = true)
    (hc : isDigitC c = false)
    (hd2 : (natOfDigits d : Int) ≤ LONG_MAX)
    (ht2 : (natOfDigits t : Int) ≤ LONG_MAX)
    (hq2 : (natOfDigits (q :: qs) : Int) ≤ LONG_MAX) :
    parse_socket_args
      (d ++ '/' :: (t ++ '/' :: (q :: qs ++ c :: rest))) = none := by
  unfold parse_socket_args
  rw [strtol10_digits d ('/' :: (t ++ '/' :: (q :: qs ++ c :: rest))) hd
    (headHard_slash _) hd2]
  rw [parse_first_slash]
  rw [strtol10_digits t ('/' :: (q :: qs ++ c :: rest)) ht
    (headHard_slash _) ht2]
  rw [parse_second_slash]
  rw [strtol10_digits_ne q qs (c :: rest) hq hc hq2]
  exact parse_third_cons _ _ _ _ _

/-- An unconsumable character other than the expected `'/'` at the
start of the first segment is rejected. -/
theorem parse_socket_args_badstart (c : Char) (rest : List Char)
    (h : headHard (c :: rest)) (hs : c ≠ '/') :
    parse_socket_args (c :: rest) = none := by
  unfold parse_socket_args
  rw [strtol10_hard (c :: rest) h]
  exact parse_first_nonslash 0 (c :: rest) (by simp [hs])

/-- An unconsumable character other than the expected `'/'` at the
start of the second segment is rejected. -/
theorem parse_socket_args_badsecond (d : List Char) (c : Char)
    (rest : List Char)
    (hd : ∀ x ∈ d, isDigitC x = true)
    (hd2 : (natOfDigits d : Int) ≤ LONG_MAX)
    (h : headHard (c :: rest)) (hs : c ≠ '/') :
    parse_socket_args (d ++ '/' :: c :: rest) = none := by
  unfold parse_socket_args
  rw [strtol10_digits d ('/' :: c :: rest) hd (headHard_slash _) hd2]
  rw [parse_first_slash]
  rw [strtol10_hard (c :: rest) h]
  exact parse_second_nonslash _ 0 (c :: rest) (by simp [hs])

/-- An unconsumable character at the start of the third segment is
rejected (here even `'/'` rejects, via the final terminator check). -/
theorem parse_socket_args_badthird (d t : List Char) (c : Char)
    (rest : List Char)
    (hd : ∀ x ∈ d, isDigitC x = true) (ht : ∀ x ∈ t, isDigitC x = true)
    (hd2 : (natOfDigits d : Int) ≤ LONG_MAX)
    (ht2 : (natOfDigits t : Int) ≤ LONG_MAX)
    (h : headHard (c :: rest)) :
    parse_socket_args (d ++ '/' :: (t ++ '/' :: c :: rest)) = none := by
  unfold parse_socket_args
  rw [strtol10_digits d ('/' :: (t ++ '/' :: c :: rest)) hd
    (headHard_slash _) hd2]
  rw [parse_first_slash]
  rw [strtol10_digits t ('/' :: c :: rest) ht (headHard_slash _) ht2]
  rw [parse_second_slash]
  rw [strtol10_hard (c :: rest) h]
  exact parse_third_cons _ _ _ _ _

/-! ### Claim C3 (`parse_socket_args`) -/

/-- Claim C3 counterexample: the input `1//3` has an empty middle
segment, which the claim says must be rejected with `INVALID_ARGS`;
the `strtol`-based parser instead performs "no conversion" on the empty
segment, leaves the pointer on the `'/'`, and accepts the input as
`(1, 0, 3)`. -/
theorem parse_socket_args_empty_segment :
    parse_socket_args ['1', '/', '/', '3'] = some (1, 0, 3) ∧
    parse_socket_args ['1', '/', '/', '3'] ≠ none := by
  constructor
  · decide
  · decide

/-- Claim C3 amended: the parser accepts the strings `<d>/<t>/<p>`
where each segment is a possibly empty run of decimal digits whose
value fits in `long` (an empty segment is NOT rejected — it parses as
0), and each yielded value is `strtol`'s `long` truncated to the `int`
out parameter (two's-complement wrap, the identity on values up to
`INT_MAX`); trailing garbage after the third integer is rejected with
`INVALID_ARGS`, as is an unconsumable character (non-digit, non-space,
non-sign, and except at the third position non-`'/'`) where a digit or
`'/'` is expected, at any of the three segment positions.  (The
terminator always exists at the parse level because `do_open` stores a
NUL at `path[datalen]`.) -/
theorem parse_socket_args_amended :
    (∀ d t p : List Char,
      (∀ c ∈ d, isDigitC c = true) → (∀ c ∈ t, isDigitC c = true) →
      (∀ c ∈ p, isDigitC c = true) →
      (natOfDigits d : Int) ≤ LONG_MAX →
      (natOfDigits t : Int) ≤ LONG_MAX →
      (natOfDigits p : Int) ≤ LONG_MAX →
      parse_socket_args (d ++ '/' :: (t ++ '/' :: p)) =
        some (toInt32 (natOfDigits d : Int), toInt32 (natOfDigits t : Int),
          toInt32 (natOfDigits p : Int))) ∧
    (∀ (d t : List Char) (q : Char) (qs rest : List Char) (c : Char),
      (∀ x ∈ d, isDigitC x = true) → (∀ x ∈ t, isDigitC x = true) →
      (∀ x ∈ q :: qs, isDigitC x = true) → isDigitC c = false →
      (natOfDigits d : Int) ≤ LONG_MAX →
      (natOfDigits t : Int) ≤ LONG_MAX →
      (natOfDigits (q :: qs) : Int) ≤ LONG_MAX →
      parse_socket_args
        (d ++ '/' :: (t ++ '/' :: (q :: qs ++ c :: rest))) = none) ∧
    (∀ (c : Char) (rest : List Char),
      headHard (c :: rest) → c ≠ '/' →
      parse_socket_args (c :: rest) = none) ∧
    (∀ (d : List Char) (c : Char) (rest : List Char),
      (∀ x ∈ d, isDigitC x = true) →
      (natOfDigits d : Int) ≤ LONG_MAX →
      headHard (c :: rest) → c ≠ '/' →
      parse_socket_args (d ++ '/' :: c :: rest) = none) ∧
    (∀ (d t : List Char) (c : Char) (rest : List Char),
      (∀ x ∈ d, isDigitC x = true) → (∀ x ∈ t, isDigitC x = true) →
      (natOfDigits d : Int) ≤ LONG_MAX →
      (natOfDigits t : Int) ≤ LONG_MAX →
      headHard (c :: rest) →
      parse_socket_args (d ++ '/' :: (t ++ '/' :: c :: rest)) = none) :=
  ⟨parse_socket_args_valid, parse_socket_args_trailing,
    parse_socket_args_badstart, parse_socket_args_badsecond,
    parse_socket_args_badthird⟩

/-- Claim C3 witness: `2/1/0` parses to `(2, 1, 0)` (small values are
unchanged by the `int` truncation); `2/1/0x`, `x`, `2/x` and `2/1/x`
are all rejected. -/
theorem parse_socket_args_amended_witness :
    parse_socket_args ['2', '/', '1', '/', '0'] = some (2, 1, 0) ∧
    parse_socket_args ['2', '/', '1', '/', '0', 'x'] = none ∧
    parse_socket_args ['x'] = none ∧
    parse_socket_args ['2', '/', 'x'] = none ∧
    parse_socket_args ['2', '/', '1', '/', 'x'] = none :=
  ⟨parse_socket_args_amended.1 ['2'] ['1'] ['0'] (by decide) (by decide)
      (by decide) (by decide) (by decide) (by decide),
   parse_socket_args_amended.2.1 ['2'] ['1'] '0' [] [] 'x' (by decide)
      (by decide) (by decide) (by decide) (by decide) (by decide)
      (by decide),
   parse_socket_args_amended.2.2.1 'x' []
      ⟨by decide, by decide, by decide, by decide⟩ (by decide),
   parse_socket_args_amended.2.2.2.1 ['2'] 'x' [] (by decide) (by decide)
      ⟨by decide, by decide, by decide, by decide⟩ (by decide),
   parse_socket_args_amended.2.2.2.2 ['2'] ['1'] 'x' [] (by decide)
      (by decide) (by decide) (by decide)
      ⟨by decide, by decide, by decide, by decide⟩⟩
